import Mathlib

/-!
Verification of the MEDimage slice-stitching core against its specification.

The development shallowly embeds the relevant parts of
`MEDimage/wrangling/combine_slices.py`, `MEDimage/wrangling/DataManager.py`
and `MEDimage/MEDimage.py`.  Machine floating-point values are modelled by
rationals (ℚ); numpy arrays by Lean lists or functions; python dictionaries
by association lists where the first matching key wins; python exceptions by
`Except`.
-/

namespace MEDimage

/-- A 3-vector of rationals, modelling a numpy length-3 float array. -/
structure Vec3 where
  x : ℚ
  y : ℚ
  z : ℚ
deriving DecidableEq, Repr

/-- Cross product of 3-vectors, as computed by numpy. -/
def cross (a b : Vec3) : Vec3 :=
  ⟨a.y * b.z - a.z * b.y, a.z * b.x - a.x * b.z, a.x * b.y - a.y * b.x⟩

/-- Dot product of 3-vectors. -/
def dot (a b : Vec3) : ℚ :=
  a.x * b.x + a.y * b.y + a.z * b.z

/-- One pydicom dataset, restricted to the attributes `combine_slices.py`
reads.  `ImageOrientationPatient` (a 6-list in DICOM) is stored already split
into its first and last three entries; `PixelSpacing` is
(row spacing, column spacing); `pixel_array` gives the raw pixel value at
(row, column); `pixel_dtype` models `pixel_array.dtype`; the two rescale
attributes are `none` when absent on the dataset. -/
structure Dataset where
  Rows : Nat
  Columns : Nat
  ImageOrientationPatient : Vec3 × Vec3
  ImagePositionPatient : Vec3
  PixelSpacing : ℚ × ℚ
  pixel_array : Nat → Nat → ℚ
  pixel_dtype : String
  RescaleSlope : Option ℚ
  RescaleIntercept : Option ℚ

instance : Inhabited Dataset :=
  ⟨{ Rows := 0
     Columns := 0
     ImageOrientationPatient := (⟨0, 0, 0⟩, ⟨0, 0, 0⟩)
     ImagePositionPatient := ⟨0, 0, 0⟩
     PixelSpacing := (0, 0)
     pixel_array := fun _ _ => 0
     pixel_dtype := ""
     RescaleSlope := none
     RescaleIntercept := none }⟩

/-- Embedding of `_extract_cosines`: row cosine, column cosine, and their cross product
(the slice normal). -/
def extract_cosines (o : Vec3 × Vec3) : Vec3 × Vec3 × Vec3 :=
  (o.1, o.2, cross o.1 o.2)

/-- The slice normal derived from the first dataset of the list
(`slice_datasets[0].ImageOrientationPatient` fed to `_extract_cosines`). -/
def sliceCosineOf (ds : List Dataset) : Vec3 :=
  (extract_cosines (ds.headD default).ImageOrientationPatient).2.2

/-- Embedding of `_slice_positions`: each slice position projected onto the slice normal
of the first dataset. -/
def slice_positions (ds : List Dataset) : List ℚ :=
  let sc := sliceCosineOf ds
  ds.map (fun d => dot sc d.ImagePositionPatient)

/-- Embedding of `_sort_by_slice_spacing`: sort the datasets by their projected position
(`sorted(zip(slice_spacing, slice_datasets))` for distinct keys). -/
def sort_by_slice_spacing (ds : List Dataset) : List Dataset :=
  let sc := sliceCosineOf ds
  List.insertionSort
    (fun a b => dot sc a.ImagePositionPatient ≤ dot sc b.ImagePositionPatient) ds

/-- Consecutive differences of a list, as computed by numpy diff. -/
def diffs (l : List ℚ) : List ℚ :=
  List.zipWith (fun a b => b - a) l l.tail

/-- Embedding of `_slice_spacing`: mean of the consecutive differences of the sorted
projected positions when there is more than one slice, `0.0` otherwise. -/
def slice_spacing (ds : List Dataset) : ℚ :=
  if 1 < ds.length then
    let d := diffs (List.insertionSort (fun a b : ℚ => a ≤ b) (slice_positions ds))
    d.sum / d.length
  else 0

/-- Embedding of `_requires_rescaling`: the dataset carries a rescale slope or intercept. -/
def requires_rescaling (d : Dataset) : Bool :=
  d.RescaleSlope.isSome || d.RescaleIntercept.isSome

/-- The merged voxel volume: its shape `(columns, rows, num_slices)`, its
numpy dtype (as a string), and the voxel value at index (column, row, slice). -/
structure Voxels where
  dims : Nat × Nat × Nat
  dtype : String
  data : Nat → Nat → Nat → ℚ

/-- Embedding of `_merge_slice_pixel_arrays`.  The first (unsorted) dataset provides the
shape and, in the non-rescaled branch, the dtype; slices are filled in
`_sort_by_slice_spacing` order.  If any slice requires rescaling the whole
volume is float32 and each voxel is `raw*slope + intercept` with per-slice
defaults 1 and 0; otherwise the source dtype is kept and voxels are the raw
transposed pixel values. -/
def merge_slice_pixel_arrays (ds : List Dataset) : Voxels :=
  let first := ds.headD default
  let sorted := sort_by_slice_spacing ds
  if sorted.any requires_rescaling then
    { dims := (first.Columns, first.Rows, ds.length)
      dtype := "float32"
      data := fun c r k =>
        let d := sorted.getD k default
        d.pixel_array r c * d.RescaleSlope.getD 1 + d.RescaleIntercept.getD 0 }
  else
    { dims := (first.Columns, first.Rows, ds.length)
      dtype := first.pixel_dtype
      data := fun c r k => (sorted.getD k default).pixel_array r c }

/-- Outcome of `_check_for_missing_slices`: `indexError` models the
`slice_positions_diffs[0]` access on an empty diff array, `missingSlices`
the raised `ValueError`; the flag records whether the non-uniformity warning
was emitted. -/
inductive CheckOutcome where
  | indexError : CheckOutcome
  | missingSlices (warned : Bool) : CheckOutcome
  | ok (warned : Bool) : CheckOutcome
deriving DecidableEq, Repr

/-- Numpy allclose with zero atol and relative tolerance `r`: every element within `r*|b|` of `b`. -/
def allclose (l : List ℚ) (b r : ℚ) : Bool :=
  l.all (fun a => |a - b| ≤ r * |b|)

/-- Embedding of `_check_for_missing_slices`: sort the projected positions, take
consecutive differences, warn when some difference deviates from the first
one by more than `1e-5` relatively, and fail when some difference deviates
by more than `1e-1` relatively. -/
def check_for_missing_slices (ps : List ℚ) : CheckOutcome :=
  let d := diffs (List.insertionSort (fun a b : ℚ => a ≤ b) ps)
  match d with
  | [] => .indexError
  | d0 :: _ =>
    let warned := ! allclose d d0 (1 / 100000)
    if ! allclose d d0 (1 / 10) then .missingSlices warned else .ok warned

/-- Embedding of `_ijk_to_patient_xyz_transform_matrix`: the 4×4 ijk→xyz transform, the
(transposed) rotation matrix and the scaling matrix, all built from the
first dataset in resolved order and the derived slice spacing. -/
def ijk_to_patient_xyz_transform_matrix (ds : List Dataset) :
    Matrix (Fin 4) (Fin 4) ℚ × Matrix (Fin 3) (Fin 3) ℚ × Matrix (Fin 3) (Fin 3) ℚ :=
  let first := (sort_by_slice_spacing ds).headD default
  let cs := extract_cosines first.ImageOrientationPatient
  let rc := cs.1
  let cc := cs.2.1
  let sc := cs.2.2
  let row_spacing := first.PixelSpacing.1
  let column_spacing := first.PixelSpacing.2
  let ss := slice_spacing ds
  let pos := first.ImagePositionPatient
  let transform : Matrix (Fin 4) (Fin 4) ℚ :=
    !![rc.x * column_spacing, cc.x * row_spacing, sc.x * ss, pos.x;
       rc.y * column_spacing, cc.y * row_spacing, sc.y * ss, pos.y;
       rc.z * column_spacing, cc.z * row_spacing, sc.z * ss, pos.z;
       0, 0, 0, 1]
  let rotationPre : Matrix (Fin 3) (Fin 3) ℚ :=
    !![rc.x, cc.x, sc.x;
       rc.y, cc.y, sc.y;
       rc.z, cc.z, sc.z]
  let scaling : Matrix (Fin 3) (Fin 3) ℚ :=
    !![column_spacing, 0, 0;
       0, row_spacing, 0;
       0, 0, ss]
  (transform, Matrix.transpose rotationPre, scaling)

/-!
### DataManager: mask-to-series association (`__associate_rt_stuct`)
-/

/-- Embedding of the find-uid-cell-index helper of DataManager: the indices of every cell entry
equal to `uid`, or the one-past-the-end index when `uid` is absent. -/
def find_uid_cell_index (uid : String) (cell : List String) : List Nat :=
  if uid ∈ cell then (List.range cell.length).filter (fun i => cell.get? i = some uid)
  else [cell.length]

/-- The DICOM bookkeeping state of a `DataManager`:
per-RTSTRUCT-file stacks (paths, referenced series UIDs, frame UIDs) and
per-series cells (series UIDs, frame UIDs, associated mask paths). -/
structure DicomState where
  stack_path_rs : List String
  stack_series_rs : List String
  stack_frame_rs : List String
  cell_series_id : List String
  cell_frame_id : List String
  cell_path_rs : List (List String)
deriving DecidableEq, Repr

/-- Append `p` to the path list at position `idx`, or `none` on a python
`IndexError` (index one past the end). -/
def addPathAt (cps : List (List String)) (idx : Nat) (p : String) :
    Option (List (List String)) :=
  if idx < cps.length then some (cps.set idx (cps.getD idx [] ++ [p])) else none

/-- Sequentially add `p` at each index, keeping the partial updates made
before a failing index, as python does; the flag records success. -/
def tryAddAll (cps : List (List String)) (inds : List Nat) (p : String) :
    List (List String) × Bool :=
  match inds with
  | [] => (cps, true)
  | i :: rest =>
    match addPathAt cps i p with
    | some cps' => tryAddAll cps' rest p
    | none => (cps, false)

/-- One iteration of the `__associate_rt_stuct` loop for mask file `i`:
try the series-UID lookup; on an `IndexError` (series UID unmatched) fall
back to the frame-UID lookup; an `IndexError` there as well propagates out
(`Except.error`). -/
def associate_one (s : DicomState) (i : Nat) : Except Unit DicomState :=
  let path := s.stack_path_rs.getD i ""
  let inds := find_uid_cell_index (s.stack_series_rs.getD i "") s.cell_series_id
  let r1 := tryAddAll s.cell_path_rs inds path
  if r1.2 then .ok { s with cell_path_rs := r1.1 }
  else
    let inds2 := find_uid_cell_index (s.stack_frame_rs.getD i "") s.cell_frame_id
    let r2 := tryAddAll r1.1 inds2 path
    if r2.2 then .ok { s with cell_path_rs := r2.1 }
    else .error ()

/-- Embedding of the associate-rt-stuct pass: run `associate_one` for every RTSTRUCT file in
order; an uncaught `IndexError` aborts the whole association. -/
def associate_rt_stuct (s : DicomState) : Except Unit DicomState :=
  (List.range s.stack_path_rs.length).foldlM associate_one s

/-!
### DataManager: in-memory instance accumulation
-/

/-- The accumulator-relevant state of a `DataManager`: how many MEDimage
instances are held in `self.instances`, the one-shot `__warned` flag, and
the `keep_instances` option. -/
structure ManagerState where
  instances : Nat
  warned : Bool
  keep_instances : Bool
deriving DecidableEq, Repr

/-- One iteration of the `process_all_niftis` loop: warn (once) when more
than ten instances are held, then append the new instance whenever
`keep_instances` is set. -/
def nifti_step (s : ManagerState) : ManagerState :=
  let s1 := if 10 < s.instances ∧ s.warned = false then { s with warned := true } else s
  if s1.keep_instances then { s1 with instances := s1.instances + 1 } else s1

/-- Accumulation of `process_all_niftis` over `n` image files. -/
def process_niftis (s : ManagerState) (n : Nat) : ManagerState :=
  Nat.rec s (fun _ acc => nifti_step acc) n

/-- The first instance-accumulation block of `process_all_dicoms`
(lines 350–356): when more than ten instances are held and no warning was
issued yet, warn and skip the batch; otherwise extend by the batch when
`keep_instances` is set. -/
def dicom_first_accumulate (s : ManagerState) (batch : Nat) : ManagerState :=
  if 10 < s.instances ∧ s.warned = false then { s with warned := true }
  else if s.keep_instances then { s with instances := s.instances + batch } else s

/-- The second instance-accumulation block of `process_all_dicoms`
(lines 396–401): warn and skip the batch under the same condition,
otherwise extend by the batch unconditionally. -/
def dicom_second_accumulate (s : ManagerState) (batch : Nat) : ManagerState :=
  if 10 < s.instances ∧ s.warned = false then { s with warned := true }
  else { s with instances := s.instances + batch }

/-!
### MEDimage.scan.ROI: sparse ROI store
-/

/-- Python dict lookup `d[k]` on an association list: the value of the
first (and, with dict discipline, only) entry carrying key `k`. -/
def dlookup {V : Type} (d : List (String × V)) (k : String) : Option V :=
  match d with
  | [] => none
  | (k', v) :: t => if k' = k then some v else dlookup t k

/-- Python dict assignment `d[k] = v` on an association list: replace the
value in place when the key is present, append the pair otherwise. -/
def dset {V : Type} (d : List (String × V)) (k : String) (v : V) :
    List (String × V) :=
  if (dlookup d k).isSome then d.map (fun p => if p.1 = k then (k, v) else p)
  else d ++ [(k, v)]

/-- Result of a ROI getter: the empty dict returned for an empty
store or a `None` key, or the stored value. -/
inductive GetResult (V : Type) where
  | emptyDict : GetResult V
  | value (v : V) : GetResult V
deriving DecidableEq, Repr

/-- The state of a `MEDimage.scan.ROI` object.  `indexes` is its own dict;
the three name dicts live in a small heap of dict objects so that python
aliasing (several attributes bound to one dict object) is representable:
each of `roi_names`, `nameSet` and `nameSetInfo` is a reference into
`nameHeap`. -/
structure ROIStore where
  indexes : List (String × List Nat)
  nameHeap : List (List (String × String))
  roi_names_ref : Nat
  nameSet_ref : Nat
  nameSetInfo_ref : Nat
deriving DecidableEq, Repr

/-- Embedding of the ROI constructor: `indexes` falls back to a fresh
empty dict when falsy; when `roi_names` is non-empty the attributes
`roi_names`, `nameSet` and `nameSetInfo` are all bound to the *same* dict
object, otherwise each gets its own fresh empty dict. -/
def ROI_init (indexes0 : List (String × List Nat))
    (roi_names0 : List (String × String)) : ROIStore :=
  if roi_names0 = [] then
    { indexes := indexes0
      nameHeap := [[], [], []]
      roi_names_ref := 0
      nameSet_ref := 1
      nameSetInfo_ref := 2 }
  else
    { indexes := indexes0
      nameHeap := [roi_names0]
      roi_names_ref := 0
      nameSet_ref := 0
      nameSetInfo_ref := 0 }

/-- The dict object currently bound to `self.roi_names`. -/
def ROIStore.roiNamesDict (s : ROIStore) : List (String × String) :=
  s.nameHeap.getD s.roi_names_ref []

/-- The dict object currently bound to `self.nameSet`. -/
def ROIStore.nameSetDict (s : ROIStore) : List (String × String) :=
  s.nameHeap.getD s.nameSet_ref []

/-- The dict object currently bound to `self.nameSetInfo`. -/
def ROIStore.nameSetInfoDict (s : ROIStore) : List (String × String) :=
  s.nameHeap.getD s.nameSetInfo_ref []

/-- Shared shape of the four getters: return the empty dict when the
backing dict is empty or the key is `None`; otherwise look `str(key)` up,
a missing key raising `KeyError` (`Except.error`). -/
def roiGet {V : Type} [DecidableEq V] (d : List (String × V)) (key : Option Int) :
    Except Unit (GetResult V) :=
  if d = [] ∨ key = none then .ok .emptyDict
  else
    match dlookup d (toString (key.getD 0)) with
    | some v => .ok (.value v)
    | none => .error ()

/-- Embedding of `ROI.get_indexes`. -/
def ROIStore.get_indexes (s : ROIStore) (key : Option Int) :
    Except Unit (GetResult (List Nat)) :=
  roiGet s.indexes key

/-- Embedding of `ROI.get_ROIname`. -/
def ROIStore.get_ROIname (s : ROIStore) (key : Option Int) :
    Except Unit (GetResult String) :=
  roiGet s.roiNamesDict key

/-- Embedding of `ROI.get_nameSet`. -/
def ROIStore.get_nameSet (s : ROIStore) (key : Option Int) :
    Except Unit (GetResult String) :=
  roiGet s.nameSetDict key

/-- Embedding of `ROI.get_nameSetInfo`. -/
def ROIStore.get_nameSetInfo (s : ROIStore) (key : Option Int) :
    Except Unit (GetResult String) :=
  roiGet s.nameSetInfoDict key

/-- Embedding of `ROI.update_indexes`: assigns into the indexes dict at str(key). -/
def ROIStore.update_indexes (s : ROIStore) (key : Int) (ixs : List Nat) :
    ROIStore :=
  { s with indexes := dset s.indexes (toString key) ixs }

/-- Embedding of `ROI.update_ROIname`: writes through the `roi_names` reference. -/
def ROIStore.update_ROIname (s : ROIStore) (key : Int) (v : String) : ROIStore :=
  { s with nameHeap :=
      s.nameHeap.set s.roi_names_ref (dset s.roiNamesDict (toString key) v) }

/-- Embedding of `ROI.update_nameSet`: writes through the `nameSet` reference. -/
def ROIStore.update_nameSet (s : ROIStore) (key : Int) (v : String) : ROIStore :=
  { s with nameHeap :=
      s.nameHeap.set s.nameSet_ref (dset s.nameSetDict (toString key) v) }

/-- Embedding of `ROI.update_nameSetInfo`: writes through the `nameSetInfo` reference. -/
def ROIStore.update_nameSetInfo (s : ROIStore) (key : Int) (v : String) : ROIStore :=
  { s with nameHeap :=
      s.nameHeap.set s.nameSetInfo_ref (dset s.nameSetInfoDict (toString key) v) }

/-!
### MEDimage.scan: dense-mask reconstruction and coordinate conversion
-/

/-- Embedding of `scan.get_ROI_from_indexes`, flattened: a zero buffer whose
length is the voxel count of the volume with the stored indices set to 1 (the final reshape and the
initial flatten cancel and are omitted). -/
def get_ROI_from_indexes (n : Nat) (ixs : List Nat) : List ℤ :=
  (List.range n).map (fun i => if i ∈ ixs then 1 else 0)

/-- Numpy nonzero on the flattened buffer: the ascending list of flat indices
holding a nonzero value. -/
def nonzero_indices (l : List ℤ) : List Nat :=
  (List.range l.length).filter (fun i => l.getD i 0 ≠ 0)

/-- Embedding of `volume.convert_to_LPS` on the data array: flip along axis 0, then
along axis 1 (the third axis stays inside `α`). -/
def convert_to_LPS_data {α : Type} (d : List (List α)) : List (List α) :=
  (d.reverse).map List.reverse

/-- The `imref3d` spatial reference as used by `volume.convert_spatialRef`.
Modelled from the spec: the `imref3d` class itself is outside the embedded
sources; per spec §3 a SpatialReference holds per-axis pixel extents, world
limits, intrinsic limits and the grid size, as plain fields. -/
structure Imref3d where
  ImageSize : Nat × Nat × Nat
  ImageExtentInWorldX : ℚ
  ImageExtentInWorldY : ℚ
  ImageExtentInWorldZ : ℚ
  PixelExtentInWorldX : ℚ
  PixelExtentInWorldY : ℚ
  PixelExtentInWorldZ : ℚ
  XWorldLimits : ℚ × ℚ
  YWorldLimits : ℚ × ℚ
  ZWorldLimits : ℚ × ℚ
  XIntrinsicLimits : ℚ × ℚ
  YIntrinsicLimits : ℚ × ℚ
  ZIntrinsicLimits : ℚ × ℚ
deriving DecidableEq, Repr

/-- Embedding of `volume.convert_spatialRef`: swap the X/Y image extents, pixel extents,
intrinsic limits and world limits; everything else is untouched. -/
def convert_spatialRef (s : Imref3d) : Imref3d :=
  { s with
    ImageExtentInWorldX := s.ImageExtentInWorldY
    ImageExtentInWorldY := s.ImageExtentInWorldX
    PixelExtentInWorldX := s.PixelExtentInWorldY
    PixelExtentInWorldY := s.PixelExtentInWorldX
    XIntrinsicLimits := s.YIntrinsicLimits
    YIntrinsicLimits := s.XIntrinsicLimits
    XWorldLimits := s.YWorldLimits
    YWorldLimits := s.XWorldLimits }

/-!
## Helper lemmas
-/

/-- Entry `j < n` of the reconstructed flat mask is 1 exactly on stored
indices. -/
lemma getD_get_ROI_from_indexes (n j : Nat) (ixs : List Nat) (hj : j < n) :
    (get_ROI_from_indexes n ixs).getD j 0 = if j ∈ ixs then 1 else 0 := by
  simp [get_ROI_from_indexes, List.getD, List.getElem?_map, List.getElem?_range, hj]

/-- The reconstructed flat mask has the voxel count as its length. -/
lemma length_get_ROI_from_indexes (n : Nat) (ixs : List Nat) :
    (get_ROI_from_indexes n ixs).length = n := by
  simp [get_ROI_from_indexes]

/-- An all-within test that fails at some tolerance also fails at any
smaller tolerance. -/
lemma allclose_mono (l : List ℚ) (b r r' : ℚ) (hr : r ≤ r')
    (h : allclose l b r' = false) : allclose l b r = false := by
  simp only [allclose, List.all_eq_false, decide_eq_true_eq] at h ⊢
  obtain ⟨a, ha, hnle⟩ := h
  refine ⟨a, ha, fun hc => hnle ?_⟩
  calc |a - b| ≤ r * |b| := hc
    _ ≤ r' * |b| := mul_le_mul_of_nonneg_right hr (abs_nonneg b)

/-- An all-within test succeeds when every element is within tolerance. -/
lemma allclose_of_forall (l : List ℚ) (b r : ℚ)
    (h : ∀ a ∈ l, |a - b| ≤ r * |b|) : allclose l b r = true := by
  simp only [allclose, List.all_eq_true, decide_eq_true_eq]
  exact h

/-- An all-within test fails as soon as one element is out of tolerance. -/
lemma allclose_false_of_witness (l : List ℚ) (b r a : ℚ) (ha : a ∈ l)
    (hlt : r * |b| < |a - b|) : allclose l b r = false := by
  simp only [allclose, List.all_eq_false, decide_eq_true_eq]
  exact ⟨a, ha, not_le.mpr hlt⟩

/-!
## C2 — missing-slice detection thresholds
-/

/-- C2, counterexample: the claim asserts that three slices at through-plane
positions 0, 10, 21 fail with MissingSlices; on the code the largest step
deviates from the first step by exactly 10% of it, the tolerance test uses
`≤`, so the check only warns and does not fail. -/
theorem missing_slices_scenario_cex :
    check_for_missing_slices [0, 10, 21] = .ok true := by
  have hs : List.insertionSort (fun a b : ℚ => a ≤ b) [0, 10, 21] = [0, 10, 21] := by
    norm_num [List.insertionSort, List.orderedInsert]
  unfold check_for_missing_slices
  rw [hs]
  have hdiff : diffs [(0 : ℚ), 10, 21] = [10, 11] := by norm_num [diffs]
  rw [hdiff]
  norm_num [allclose]

/-- C2, amended: a slice collection whose sorted through-plane positions
have some consecutive step deviating from the first step by strictly more
than 10% of it fails with MissingSlices; if every deviation is within 10%
but some deviation exceeds the 1e-5 relative threshold, the check warns
without failing.  In particular positions 0, 10, 21 (deviation exactly 10%)
warn without failing, while 0, 10, 21.1 fail with MissingSlices. -/
theorem missing_slices_amended (ps : List ℚ) (d0 : ℚ) (rest : List ℚ)
    (hd : diffs (List.insertionSort (fun a b : ℚ => a ≤ b) ps) = d0 :: rest) :
    ((∃ a ∈ d0 :: rest, (1 / 10 : ℚ) * |d0| < |a - d0|) →
      check_for_missing_slices ps = .missingSlices true)
    ∧ ((∀ a ∈ d0 :: rest, |a - d0| ≤ (1 / 10 : ℚ) * |d0|) →
        (∃ a ∈ d0 :: rest, (1 / 100000 : ℚ) * |d0| < |a - d0|) →
        check_for_missing_slices ps = .ok true)
    ∧ check_for_missing_slices [0, 10, 21] = .ok true
    ∧ check_for_missing_slices [0, 10, (211 : ℚ) / 10] = .missingSlices true := by
  have hs3 : List.insertionSort (fun a b : ℚ => a ≤ b) [0, 10, 21] = [0, 10, 21] := by
    norm_num [List.insertionSort, List.orderedInsert]
  have hs3b : List.insertionSort (fun a b : ℚ => a ≤ b) [0, 10, (211 : ℚ) / 10]
      = [0, 10, (211 : ℚ) / 10] := by
    norm_num [List.insertionSort, List.orderedInsert]
  refine ⟨?_, ?_, ?_, ?_⟩
  · rintro ⟨a, ha, hlt⟩
    have hfail := allclose_false_of_witness (d0 :: rest) d0 (1 / 10) a ha hlt
    have hwarn := allclose_mono (d0 :: rest) d0 (1 / 100000) (1 / 10)
      (by norm_num) hfail
    unfold check_for_missing_slices
    rw [hd]
    simp only [hfail, hwarn]
    rfl
  · intro hall
    rintro ⟨a, ha, hlt⟩
    have hok := allclose_of_forall (d0 :: rest) d0 (1 / 10) hall
    have hwarn := allclose_false_of_witness (d0 :: rest) d0 (1 / 100000) a ha hlt
    unfold check_for_missing_slices
    rw [hd]
    simp only [hok, hwarn]
    rfl
  · unfold check_for_missing_slices
    rw [hs3]
    have hdiff : diffs [(0 : ℚ), 10, 21] = [10, 11] := by norm_num [diffs]
    rw [hdiff]
    norm_num [allclose]
  · unfold check_for_missing_slices
    rw [hs3b]
    have hdiff : diffs [(0 : ℚ), 10, (211 : ℚ) / 10] = [10, (111 : ℚ) / 10] := by
      norm_num [diffs]
    rw [hdiff]
    have habs : |(111 : ℚ) / 10 - 10| = 11 / 10 := by
      rw [show (111 : ℚ) / 10 - 10 = 11 / 10 by norm_num]
      exact abs_of_nonneg (by norm_num)
    have habs2 : |(11 : ℚ) / 10| = 11 / 10 := abs_of_nonneg (by norm_num)
    norm_num [allclose, habs, habs2]

/-- C2, witness: the amended theorem applied at the two concrete scenarios. -/
theorem missing_slices_amended_witness :
    check_for_missing_slices [0, 10, 21] = .ok true
    ∧ check_for_missing_slices [0, 10, (211 : ℚ) / 10] = .missingSlices true :=
  ⟨(missing_slices_amended [0, 10, 21] 10 [11]
      (by norm_num [List.insertionSort, List.orderedInsert, diffs])).2.1
      (by intro a ha; fin_cases ha <;> norm_num)
      ⟨11, by norm_num, by norm_num⟩,
   (missing_slices_amended [0, 10, (211 : ℚ) / 10] 10 [(111 : ℚ) / 10]
      (by norm_num [List.insertionSort, List.orderedInsert, diffs])).1
      ⟨(111 : ℚ) / 10, by norm_num, by
        have h : |(111 : ℚ) / 10 - 10| = 11 / 10 := by
          rw [show (111 : ℚ) / 10 - 10 = 11 / 10 by norm_num]
          exact abs_of_nonneg (by norm_num)
        rw [h]
        norm_num⟩⟩

/-!
## C6 — getters on an unset key
-/

/-- A getter returns the empty dict when the backing dict is empty or the
key is None. -/
lemma roiGet_empty_or_none {V : Type} [DecidableEq V] (d : List (String × V))
    (key : Option Int) (h : d = [] ∨ key = none) :
    roiGet d key = .ok .emptyDict := by
  unfold roiGet
  rw [if_pos h]

/-- A getter raises KeyError on an unset key in a non-empty dict. -/
lemma roiGet_unset {V : Type} [DecidableEq V] (d : List (String × V)) (k : Int)
    (hne : d ≠ []) (hl : dlookup d (toString k) = none) :
    roiGet d (some k) = .error () := by
  unfold roiGet
  rw [if_neg (by simp [hne])]
  simp [hl]

/-- C6, counterexample: the claim asserts that a get on an unset key
returns an empty result even when the store holds entries under other keys;
on the code a non-empty dict and an unset key raise KeyError. -/
theorem roi_get_unset_key_cex :
    (ROI_init [("0", [5])] []).get_indexes (some 1) = .error ()
    ∧ (ROI_init [] [("0", "gtv")]).get_ROIname (some 1) = .error () :=
  ⟨rfl, rfl⟩

/-- C6, amended: each get operation returns an empty result, not an error,
only when the backing dict is empty or the key is None; for an unset key in
a non-empty dict every get operation raises KeyError. -/
theorem roi_get_amended (s : ROIStore) (key : Option Int) :
    (s.indexes = [] ∨ key = none → s.get_indexes key = .ok .emptyDict)
    ∧ (s.roiNamesDict = [] ∨ key = none → s.get_ROIname key = .ok .emptyDict)
    ∧ (s.nameSetDict = [] ∨ key = none → s.get_nameSet key = .ok .emptyDict)
    ∧ (s.nameSetInfoDict = [] ∨ key = none → s.get_nameSetInfo key = .ok .emptyDict)
    ∧ (∀ k : Int, key = some k →
        (s.indexes ≠ [] → dlookup s.indexes (toString k) = none →
          s.get_indexes key = .error ())
        ∧ (s.roiNamesDict ≠ [] → dlookup s.roiNamesDict (toString k) = none →
          s.get_ROIname key = .error ())
        ∧ (s.nameSetDict ≠ [] → dlookup s.nameSetDict (toString k) = none →
          s.get_nameSet key = .error ())
        ∧ (s.nameSetInfoDict ≠ [] → dlookup s.nameSetInfoDict (toString k) = none →
          s.get_nameSetInfo key = .error ())) := by
  refine ⟨fun h => roiGet_empty_or_none _ _ h, fun h => roiGet_empty_or_none _ _ h,
    fun h => roiGet_empty_or_none _ _ h, fun h => roiGet_empty_or_none _ _ h,
    fun k hk => ?_⟩
  subst hk
  exact ⟨fun hne hl => roiGet_unset _ _ hne hl, fun hne hl => roiGet_unset _ _ hne hl,
    fun hne hl => roiGet_unset _ _ hne hl, fun hne hl => roiGet_unset _ _ hne hl⟩

/-- C6, witness: the amended theorem applied at a concrete store, giving
the empty result for a None key and the KeyError for an unset key. -/
theorem roi_get_amended_witness :
    (ROI_init [("0", [5])] []).get_indexes none = .ok .emptyDict
    ∧ (ROI_init [("0", [5])] []).get_indexes (some 1) = .error () :=
  ⟨(roi_get_amended (ROI_init [("0", [5])] []) none).1 (Or.inr rfl),
   ((roi_get_amended (ROI_init [("0", [5])] []) (some 1)).2.2.2.2 1 rfl).1
      (by decide) (by decide)⟩

/-!
## C7 — sparse/dense round trip
-/

/-- C7: for a stored index list whose members all lie below the voxel count
of the target volume, reconstructing the dense flat mask and re-extracting
the nonzero flat indices reproduces the original index set exactly. -/
theorem roi_mask_roundtrip (n : Nat) (ixs : List Nat) (h : ∀ i ∈ ixs, i < n) :
    (nonzero_indices (get_ROI_from_indexes n ixs)).toFinset = ixs.toFinset := by
  ext j
  simp only [List.mem_toFinset, nonzero_indices, List.mem_filter, List.mem_range,
    length_get_ROI_from_indexes, decide_eq_true_eq]
  constructor
  · rintro ⟨hj, hne⟩
    rw [getD_get_ROI_from_indexes n j ixs hj] at hne
    by_contra hmem
    simp [hmem] at hne
  · intro hj
    have hlt := h j hj
    refine ⟨hlt, ?_⟩
    rw [getD_get_ROI_from_indexes n j ixs hlt]
    simp [hj]

/-- C7, witness: the round trip at voxel count 6 and stored indices 4, 1. -/
theorem roi_mask_roundtrip_witness :
    (∀ i ∈ [4, 1], i < 6)
    ∧ (nonzero_indices (get_ROI_from_indexes 6 [4, 1])).toFinset
        = ([4, 1] : List Nat).toFinset :=
  ⟨by decide, roi_mask_roundtrip 6 [4, 1] (by decide)⟩

/-!
## C8 — coordinate conversion is involutive
-/

/-- C8: flipping the volume data along its first two axes twice reproduces
the original array, and swapping the X/Y extents, world limits and
intrinsic limits of a spatial reference twice reproduces the original,
each application leaving the Z fields untouched. -/
theorem coordinate_conversion_involutive :
    (∀ (α : Type) (d : List (List α)),
      convert_to_LPS_data (convert_to_LPS_data d) = d)
    ∧ (∀ s : Imref3d,
      convert_spatialRef (convert_spatialRef s) = s
      ∧ (convert_spatialRef s).ZWorldLimits = s.ZWorldLimits
      ∧ (convert_spatialRef s).ZIntrinsicLimits = s.ZIntrinsicLimits
      ∧ (convert_spatialRef s).ImageExtentInWorldZ = s.ImageExtentInWorldZ
      ∧ (convert_spatialRef s).PixelExtentInWorldZ = s.PixelExtentInWorldZ
      ∧ (convert_spatialRef s).ImageSize = s.ImageSize) := by
  constructor
  · intro α d
    simp [convert_to_LPS_data, List.map_reverse, List.map_map, Function.comp_def]
  · intro s
    exact ⟨rfl, rfl, rfl, rfl, rfl, rfl⟩

/-!
## C9 — in-memory accumulator policy
-/

/-- One NIfTI iteration never changes the keep-instances option. -/
lemma nifti_step_keep (s : ManagerState) :
    (nifti_step s).keep_instances = s.keep_instances := by
  obtain ⟨i, w, k⟩ := s
  by_cases h10 : 10 < i <;> cases w <;> cases k <;> simp [nifti_step, h10]

/-- One NIfTI iteration with keep-instances set retains the new instance,
whatever the warning state is. -/
lemma nifti_step_instances_of_keep (s : ManagerState)
    (hk : s.keep_instances = true) :
    (nifti_step s).instances = s.instances + 1 := by
  obtain ⟨i, w, k⟩ := s
  subst hk
  by_cases h10 : 10 < i <;> cases w <;> simp [nifti_step, h10]

/-- C9, counterexample: the claim asserts that once more than ten instances
are held, every further completed instance is dropped; on the code a state
holding eleven instances still retains the next instance (while warning),
and fifteen completions from an empty accumulator all end up retained. -/
theorem accumulator_growth_cex :
    nifti_step ⟨11, false, true⟩ = ⟨12, true, true⟩
    ∧ process_niftis ⟨0, false, true⟩ 15 = ⟨15, true, true⟩ :=
  ⟨rfl, rfl⟩

/-- C9, amended: crossing the ten-instance threshold triggers the warning
exactly once; in the NIfTI loop every completed instance is still appended
whenever keep-instances is set, so the accumulator grows without bound; in
the DICOM pass only the batch that coincides with the first warning is
dropped, and once the warning flag is set the second accumulation block
retains every further batch. -/
theorem accumulator_policy_amended :
    (∀ s : ManagerState,
      (nifti_step s).warned = (s.warned || decide (10 < s.instances)))
    ∧ (∀ s : ManagerState, s.keep_instances = true →
      (nifti_step s).instances = s.instances + 1)
    ∧ (∀ n : Nat, (process_niftis ⟨0, false, true⟩ n).instances = n)
    ∧ (∀ (s : ManagerState) (b : Nat), 10 < s.instances → s.warned = false →
      dicom_first_accumulate s b = { s with warned := true })
    ∧ (∀ (s : ManagerState) (b : Nat), s.warned = true →
      dicom_second_accumulate s b = { s with instances := s.instances + b }) := by
  refine ⟨fun s => ?_, fun s hk => nifti_step_instances_of_keep s hk,
    fun n => ?_, fun s b h10 hw => ?_, fun s b hw => ?_⟩
  · obtain ⟨i, w, k⟩ := s
    by_cases h10 : 10 < i <;> cases w <;> cases k <;>
      simp [nifti_step, h10]
  · induction n with
    | zero => rfl
    | succ m ih =>
      have hkeep : (process_niftis ⟨0, false, true⟩ m).keep_instances = true := by
        clear ih
        induction m with
        | zero => rfl
        | succ p ihp =>
          have hp := nifti_step_keep (process_niftis ⟨0, false, true⟩ p)
          exact hp.trans ihp
      have hstep := nifti_step_instances_of_keep
          (process_niftis ⟨0, false, true⟩ m) hkeep
      show (nifti_step (process_niftis ⟨0, false, true⟩ m)).instances = m + 1
      rw [hstep, ih]
  · unfold dicom_first_accumulate
    rw [if_pos ⟨h10, hw⟩]
  · unfold dicom_second_accumulate
    rw [if_neg (by simp [hw])]

/-!
## C1 — volume assembly
-/

/-- The sorted output is a permutation of the input datasets. -/
lemma sort_perm (ds : List Dataset) : (sort_by_slice_spacing ds).Perm ds := by
  unfold sort_by_slice_spacing
  exact List.perm_insertionSort _ ds

/-- C1: the assembled volume has shape (columns, rows, num_slices) and is
filled slice-by-slice in resolved order; when at least one slice carries a
rescale attribute the whole output is float32 and every voxel equals
raw*slope + intercept with defaults 1 and 0; otherwise the output keeps the
source dtype exactly and every voxel is the raw transposed pixel value. -/
theorem volume_assembly (ds : List Dataset) (_hne : ds ≠ []) :
    (merge_slice_pixel_arrays ds).dims
        = ((ds.headD default).Columns, (ds.headD default).Rows, ds.length)
    ∧ ((∃ d ∈ ds, requires_rescaling d = true) →
        (merge_slice_pixel_arrays ds).dtype = "float32"
        ∧ ∀ c r k, (merge_slice_pixel_arrays ds).data c r k
            = ((sort_by_slice_spacing ds).getD k default).pixel_array r c
                * ((sort_by_slice_spacing ds).getD k default).RescaleSlope.getD 1
              + ((sort_by_slice_spacing ds).getD k default).RescaleIntercept.getD 0)
    ∧ ((∀ d ∈ ds, requires_rescaling d = false) →
        (merge_slice_pixel_arrays ds).dtype = (ds.headD default).pixel_dtype
        ∧ ∀ c r k, (merge_slice_pixel_arrays ds).data c r k
            = ((sort_by_slice_spacing ds).getD k default).pixel_array r c) := by
  have hperm := sort_perm ds
  refine ⟨?_, ?_, ?_⟩
  · simp only [merge_slice_pixel_arrays]
    split <;> rfl
  · intro hex
    have hb : (sort_by_slice_spacing ds).any requires_rescaling = true := by
      rw [List.any_eq_true]
      obtain ⟨d, hd, hr⟩ := hex
      exact ⟨d, hperm.mem_iff.mpr hd, hr⟩
    constructor
    · simp only [merge_slice_pixel_arrays]
      rw [if_pos hb]
    · intro c r k
      simp only [merge_slice_pixel_arrays]
      rw [if_pos hb]
  · intro hall
    have hb : (sort_by_slice_spacing ds).any requires_rescaling = false := by
      rw [List.any_eq_false]
      intro d hd
      rw [hall d (hperm.mem_iff.mp hd)]
      simp
    constructor
    · simp only [merge_slice_pixel_arrays]
      rw [if_neg (by rw [hb]; simp)]
    · intro c r k
      simp only [merge_slice_pixel_arrays]
      rw [if_neg (by rw [hb]; simp)]

/-- A plain 2×2 slice at z = 0, no rescale attributes. -/
def dV0 : Dataset where
  Rows := 2
  Columns := 2
  ImageOrientationPatient := (⟨1, 0, 0⟩, ⟨0, 1, 0⟩)
  ImagePositionPatient := ⟨0, 0, 0⟩
  PixelSpacing := (1, 1)
  pixel_array := fun r c => 10 * r + c
  pixel_dtype := "int16"
  RescaleSlope := none
  RescaleIntercept := none

/-- A 2×2 slice at z = 1 carrying a rescale slope of 2 (no intercept). -/
def dV1 : Dataset where
  Rows := 2
  Columns := 2
  ImageOrientationPatient := (⟨1, 0, 0⟩, ⟨0, 1, 0⟩)
  ImagePositionPatient := ⟨0, 0, 1⟩
  PixelSpacing := (1, 1)
  pixel_array := fun r c => 100 + 10 * r + c
  pixel_dtype := "int16"
  RescaleSlope := some 2
  RescaleIntercept := none

/-- C1, witness: the assembly theorem at a concrete two-slice series with
one rescaled slice. -/
theorem volume_assembly_witness :
    (merge_slice_pixel_arrays [dV0, dV1]).dims = (2, 2, 2)
    ∧ (merge_slice_pixel_arrays [dV0, dV1]).dtype = "float32"
    ∧ (merge_slice_pixel_arrays [dV0, dV1]).data 0 1 1
      = ((sort_by_slice_spacing [dV0, dV1]).getD 1 default).pixel_array 1 0
          * ((sort_by_slice_spacing [dV0, dV1]).getD 1 default).RescaleSlope.getD 1
        + ((sort_by_slice_spacing [dV0, dV1]).getD 1 default).RescaleIntercept.getD 0 :=
  ⟨(volume_assembly [dV0, dV1] (by simp)).1,
   ((volume_assembly [dV0, dV1] (by simp)).2.1
      ⟨dV1, List.mem_cons_of_mem dV0 (List.mem_singleton_self dV1), rfl⟩).1,
   ((volume_assembly [dV0, dV1] (by simp)).2.1
      ⟨dV1, List.mem_cons_of_mem dV0 (List.mem_singleton_self dV1), rfl⟩).2 0 1 1⟩

/-!
## C4 — normal, canonical order and derived spacing
-/

/-- The sorted output is sorted with respect to the projected-position key
of the input list. -/
lemma sort_sorted_rel (ds : List Dataset) :
    (sort_by_slice_spacing ds).Sorted
      (fun a b => dot (sliceCosineOf ds) a.ImagePositionPatient
        ≤ dot (sliceCosineOf ds) b.ImagePositionPatient) := by
  unfold sort_by_slice_spacing
  haveI htot : IsTotal Dataset
      (fun a b => dot (sliceCosineOf ds) a.ImagePositionPatient
        ≤ dot (sliceCosineOf ds) b.ImagePositionPatient) :=
    ⟨fun a b => le_total _ _⟩
  haveI htrans : IsTrans Dataset
      (fun a b => dot (sliceCosineOf ds) a.ImagePositionPatient
        ≤ dot (sliceCosineOf ds) b.ImagePositionPatient) :=
    ⟨fun a b c hab hbc => le_trans hab hbc⟩
  exact List.sorted_insertionSort _ ds

/-- Two sorted permutations of each other with pairwise-distinct keys are
equal. -/
lemma sorted_key_unique {α : Type} (f : α → ℚ) :
    ∀ (l₁ l₂ : List α), l₁.Perm l₂ →
      l₁.Sorted (fun a b => f a ≤ f b) → l₂.Sorted (fun a b => f a ≤ f b) →
      (l₁.map f).Nodup → l₁ = l₂ := by
  intro l₁
  induction l₁ with
  | nil =>
    intro l₂ hp _ _ _
    exact hp.nil_eq
  | cons a t ih =>
    intro l₂ hp hs₁ hs₂ hnd
    cases l₂ with
    | nil => exact absurd hp.eq_nil (List.cons_ne_nil a t)
    | cons b t₂ =>
      have hb_mem : b ∈ a :: t := hp.symm.subset (List.mem_cons_self b t₂)
      have ha_mem : a ∈ b :: t₂ := hp.subset (List.mem_cons_self a t)
      have hab : a = b := by
        rcases List.mem_cons.mp hb_mem with h | hbt
        · exact h.symm
        rcases List.mem_cons.mp ha_mem with h | hat
        · exact h
        have h₁ : f a ≤ f b := List.rel_of_sorted_cons hs₁ b hbt
        have h₂ : f b ≤ f a := List.rel_of_sorted_cons hs₂ a hat
        exact List.inj_on_of_nodup_map hnd (List.mem_cons_self a t) hb_mem
          (le_antisymm h₁ h₂)
      subst hab
      have ht := ih t₂ hp.cons_inv hs₁.of_cons hs₂.of_cons
        (by rw [List.map_cons] at hnd; exact hnd.of_cons)
      rw [ht]

/-- Sorting two permutations of the same slice collection (same orientation
on every slice, distinct projected positions) yields the same result. -/
lemma sort_input_order_of_perm (ds₁ ds₂ : List Dataset)
    (hperm : ds₁.Perm ds₂)
    (hall : ∀ d ∈ ds₁,
      d.ImageOrientationPatient = (ds₁.headD default).ImageOrientationPatient)
    (hnodup : (slice_positions ds₁).Nodup) :
    sort_by_slice_spacing ds₁ = sort_by_slice_spacing ds₂ := by
  cases ds₁ with
  | nil =>
    have h2 : ds₂ = [] := hperm.nil_eq.symm
    rw [h2]
  | cons d0 t =>
    cases ds₂ with
    | nil => exact absurd hperm.eq_nil (List.cons_ne_nil d0 t)
    | cons e0 t₂ =>
      have hb_mem : e0 ∈ d0 :: t := hperm.symm.subset (List.mem_cons_self e0 t₂)
      have hor : e0.ImageOrientationPatient = d0.ImageOrientationPatient :=
        hall e0 hb_mem
      have hcos : sliceCosineOf (e0 :: t₂) = sliceCosineOf (d0 :: t) := by
        unfold sliceCosineOf
        rw [show (e0 :: t₂).headD default = e0 from rfl,
          show (d0 :: t).headD default = d0 from rfl, hor]
      have hkey : slice_positions (d0 :: t)
          = (d0 :: t).map
              (fun d => dot (sliceCosineOf (d0 :: t)) d.ImagePositionPatient) := rfl
      apply sorted_key_unique
        (fun d => dot (sliceCosineOf (d0 :: t)) d.ImagePositionPatient)
      · exact ((sort_perm (d0 :: t)).trans hperm).trans (sort_perm (e0 :: t₂)).symm
      · exact sort_sorted_rel (d0 :: t)
      · have hs2 := sort_sorted_rel (e0 :: t₂)
        rw [hcos] at hs2
        exact hs2
      · have hmapperm :
            ((sort_by_slice_spacing (d0 :: t)).map
              (fun d => dot (sliceCosineOf (d0 :: t)) d.ImagePositionPatient)).Perm
            ((d0 :: t).map
              (fun d => dot (sliceCosineOf (d0 :: t)) d.ImagePositionPatient)) :=
          (sort_perm (d0 :: t)).map _
        rw [hkey] at hnodup
        exact hmapperm.nodup_iff.mpr hnodup

/-- A 2×2 axial slice (cosines (1,0,0) and (0,1,0)) at position `p` with
pixel spacing (1,1). -/
def mkAxial (p : Vec3) : Dataset where
  Rows := 2
  Columns := 2
  ImageOrientationPatient := (⟨1, 0, 0⟩, ⟨0, 1, 0⟩)
  ImagePositionPatient := p
  PixelSpacing := (1, 1)
  pixel_array := fun _ _ => 0
  pixel_dtype := "int16"
  RescaleSlope := none
  RescaleIntercept := none

/-- C4: the slice normal is the cross product of the row and column
cosines; the resolved order is ascending in the projected-position key and
is independent of the input order (given a common orientation and distinct
keys); the derived spacing is the mean of the consecutive differences of
the sorted keys, and 0 for a single slice; the three axial slices at
z = 0, 2, 4 give spacing 2 and normal (0,0,1). -/
theorem slice_order_spacing_normal :
    (∀ o : Vec3 × Vec3, (extract_cosines o).2.2 = cross o.1 o.2)
    ∧ (∀ ds : List Dataset,
        List.Sorted (· ≤ ·) ((sort_by_slice_spacing ds).map
          (fun d => dot (sliceCosineOf ds) d.ImagePositionPatient)))
    ∧ (∀ ds₁ ds₂ : List Dataset, ds₁.Perm ds₂ →
        (∀ d ∈ ds₁, d.ImageOrientationPatient
          = (ds₁.headD default).ImageOrientationPatient) →
        (slice_positions ds₁).Nodup →
        sort_by_slice_spacing ds₁ = sort_by_slice_spacing ds₂)
    ∧ (∀ d : Dataset, slice_spacing [d] = 0)
    ∧ (∀ ds : List Dataset, 1 < ds.length →
        slice_spacing ds
          = (diffs (List.insertionSort (fun a b : ℚ => a ≤ b)
              (slice_positions ds))).sum
            / (diffs (List.insertionSort (fun a b : ℚ => a ≤ b)
              (slice_positions ds))).length)
    ∧ (slice_spacing [mkAxial ⟨0, 0, 0⟩, mkAxial ⟨0, 0, 2⟩, mkAxial ⟨0, 0, 4⟩] = 2
      ∧ sliceCosineOf [mkAxial ⟨0, 0, 0⟩, mkAxial ⟨0, 0, 2⟩, mkAxial ⟨0, 0, 4⟩]
          = ⟨0, 0, 1⟩) := by
  refine ⟨fun o => rfl, ?_, sort_input_order_of_perm, fun d => rfl, ?_, ?_, ?_⟩
  · intro ds
    have hs := sort_sorted_rel ds
    show List.Pairwise _ _
    exact List.pairwise_map.mpr hs
  · intro ds h
    unfold slice_spacing
    rw [if_pos h]
  · norm_num [slice_spacing, slice_positions, sliceCosineOf, extract_cosines,
      cross, dot, mkAxial, List.insertionSort, List.orderedInsert, diffs]
  · norm_num [sliceCosineOf, extract_cosines, cross, mkAxial]

/-- C4, witness: order-independence, single-slice spacing and the concrete
scenario, all via the main theorem. -/
theorem slice_order_spacing_normal_witness :
    sort_by_slice_spacing [mkAxial ⟨0, 0, 2⟩, mkAxial ⟨0, 0, 0⟩]
      = sort_by_slice_spacing [mkAxial ⟨0, 0, 0⟩, mkAxial ⟨0, 0, 2⟩]
    ∧ slice_spacing [mkAxial ⟨0, 0, 0⟩] = 0
    ∧ slice_spacing [mkAxial ⟨0, 0, 0⟩, mkAxial ⟨0, 0, 2⟩, mkAxial ⟨0, 0, 4⟩] = 2 :=
  ⟨slice_order_spacing_normal.2.2.1 [mkAxial ⟨0, 0, 2⟩, mkAxial ⟨0, 0, 0⟩]
      [mkAxial ⟨0, 0, 0⟩, mkAxial ⟨0, 0, 2⟩]
      (List.Perm.swap (mkAxial ⟨0, 0, 0⟩) (mkAxial ⟨0, 0, 2⟩) [])
      (by
        intro d hd
        rcases List.mem_cons.mp hd with h | h
        · rw [h]
          rfl
        · rw [List.mem_singleton] at h
          rw [h]
          rfl)
      (by norm_num [slice_positions, sliceCosineOf, extract_cosines, cross,
        dot, mkAxial]),
   slice_order_spacing_normal.2.2.2.1 (mkAxial ⟨0, 0, 0⟩),
   slice_order_spacing_normal.2.2.2.2.2.1⟩

/-!
## C5 — affine, rotation and scaling matrices
-/

/-- The first dataset in resolved (sorted) order, as used by the transform
builder (`_sort_by_slice_spacing(slice_datasets)[0]`). -/
def resolved_first (ds : List Dataset) : Dataset :=
  (sort_by_slice_spacing ds).headD default

/-- A concrete single-slice series with row cosine (0,1,0) and column
cosine (0,0,1), whose slice normal is (1,0,0). -/
def dRot : Dataset where
  Rows := 2
  Columns := 2
  ImageOrientationPatient := (⟨0, 1, 0⟩, ⟨0, 0, 1⟩)
  ImagePositionPatient := ⟨0, 0, 0⟩
  PixelSpacing := (1, 1)
  pixel_array := fun _ _ => 0
  pixel_dtype := "int16"
  RescaleSlope := none
  RescaleIntercept := none

/-- C5, counterexample: the claim asserts that the returned rotation matrix
has the direction cosines as columns; on the code the matrix is built with
cosine columns and then transposed before being returned, so for the slice
series `[dRot]` its first column is not the row cosine. -/
theorem affine_rotation_columns_cex :
    ¬ ((ijk_to_patient_xyz_transform_matrix [dRot]).2.1 0 0
          = (extract_cosines dRot.ImageOrientationPatient).1.x
        ∧ (ijk_to_patient_xyz_transform_matrix [dRot]).2.1 1 0
          = (extract_cosines dRot.ImageOrientationPatient).1.y
        ∧ (ijk_to_patient_xyz_transform_matrix [dRot]).2.1 2 0
          = (extract_cosines dRot.ImageOrientationPatient).1.z) := by
  norm_num [ijk_to_patient_xyz_transform_matrix, sort_by_slice_spacing,
    extract_cosines, cross, dRot, Matrix.transpose]

/-- C5, amended: the 4×4 transform has columns
row_cosine*column_spacing, column_cosine*row_spacing,
slice_normal*slice_spacing and the position of the first slice in resolved
order; the returned rotation matrix has the direction cosines as its ROWS
(the cosine-column matrix is transposed before being returned); the scaling
matrix has diagonal (column spacing, row spacing, slice spacing). -/
theorem affine_builder_amended (ds : List Dataset) :
    ((ijk_to_patient_xyz_transform_matrix ds).1 0 0
        = (extract_cosines (resolved_first ds).ImageOrientationPatient).1.x
            * (resolved_first ds).PixelSpacing.2
      ∧ (ijk_to_patient_xyz_transform_matrix ds).1 1 0
        = (extract_cosines (resolved_first ds).ImageOrientationPatient).1.y
            * (resolved_first ds).PixelSpacing.2
      ∧ (ijk_to_patient_xyz_transform_matrix ds).1 2 0
        = (extract_cosines (resolved_first ds).ImageOrientationPatient).1.z
            * (resolved_first ds).PixelSpacing.2
      ∧ (ijk_to_patient_xyz_transform_matrix ds).1 3 0 = 0)
    ∧ ((ijk_to_patient_xyz_transform_matrix ds).1 0 1
        = (extract_cosines (resolved_first ds).ImageOrientationPatient).2.1.x
            * (resolved_first ds).PixelSpacing.1
      ∧ (ijk_to_patient_xyz_transform_matrix ds).1 1 1
        = (extract_cosines (resolved_first ds).ImageOrientationPatient).2.1.y
            * (resolved_first ds).PixelSpacing.1
      ∧ (ijk_to_patient_xyz_transform_matrix ds).1 2 1
        = (extract_cosines (resolved_first ds).ImageOrientationPatient).2.1.z
            * (resolved_first ds).PixelSpacing.1
      ∧ (ijk_to_patient_xyz_transform_matrix ds).1 3 1 = 0)
    ∧ ((ijk_to_patient_xyz_transform_matrix ds).1 0 2
        = (extract_cosines (resolved_first ds).ImageOrientationPatient).2.2.x
            * slice_spacing ds
      ∧ (ijk_to_patient_xyz_transform_matrix ds).1 1 2
        = (extract_cosines (resolved_first ds).ImageOrientationPatient).2.2.y
            * slice_spacing ds
      ∧ (ijk_to_patient_xyz_transform_matrix ds).1 2 2
        = (extract_cosines (resolved_first ds).ImageOrientationPatient).2.2.z
            * slice_spacing ds
      ∧ (ijk_to_patient_xyz_transform_matrix ds).1 3 2 = 0)
    ∧ ((ijk_to_patient_xyz_transform_matrix ds).1 0 3
        = (resolved_first ds).ImagePositionPatient.x
      ∧ (ijk_to_patient_xyz_transform_matrix ds).1 1 3
        = (resolved_first ds).ImagePositionPatient.y
      ∧ (ijk_to_patient_xyz_transform_matrix ds).1 2 3
        = (resolved_first ds).ImagePositionPatient.z
      ∧ (ijk_to_patient_xyz_transform_matrix ds).1 3 3 = 1)
    ∧ ((ijk_to_patient_xyz_transform_matrix ds).2.1 0 0
        = (extract_cosines (resolved_first ds).ImageOrientationPatient).1.x
      ∧ (ijk_to_patient_xyz_transform_matrix ds).2.1 0 1
        = (extract_cosines (resolved_first ds).ImageOrientationPatient).1.y
      ∧ (ijk_to_patient_xyz_transform_matrix ds).2.1 0 2
        = (extract_cosines (resolved_first ds).ImageOrientationPatient).1.z
      ∧ (ijk_to_patient_xyz_transform_matrix ds).2.1 1 0
        = (extract_cosines (resolved_first ds).ImageOrientationPatient).2.1.x
      ∧ (ijk_to_patient_xyz_transform_matrix ds).2.1 1 1
        = (extract_cosines (resolved_first ds).ImageOrientationPatient).2.1.y
      ∧ (ijk_to_patient_xyz_transform_matrix ds).2.1 1 2
        = (extract_cosines (resolved_first ds).ImageOrientationPatient).2.1.z
      ∧ (ijk_to_patient_xyz_transform_matrix ds).2.1 2 0
        = (extract_cosines (resolved_first ds).ImageOrientationPatient).2.2.x
      ∧ (ijk_to_patient_xyz_transform_matrix ds).2.1 2 1
        = (extract_cosines (resolved_first ds).ImageOrientationPatient).2.2.y
      ∧ (ijk_to_patient_xyz_transform_matrix ds).2.1 2 2
        = (extract_cosines (resolved_first ds).ImageOrientationPatient).2.2.z)
    ∧ ((ijk_to_patient_xyz_transform_matrix ds).2.2 0 0
        = (resolved_first ds).PixelSpacing.2
      ∧ (ijk_to_patient_xyz_transform_matrix ds).2.2 1 1
        = (resolved_first ds).PixelSpacing.1
      ∧ (ijk_to_patient_xyz_transform_matrix ds).2.2 2 2 = slice_spacing ds) :=
  ⟨⟨rfl, rfl, rfl, rfl⟩, ⟨rfl, rfl, rfl, rfl⟩, ⟨rfl, rfl, rfl, rfl⟩,
   ⟨rfl, rfl, rfl, rfl⟩, ⟨rfl, rfl, rfl, rfl, rfl, rfl, rfl, rfl, rfl⟩,
   ⟨rfl, rfl, rfl⟩⟩

/-!
## C3 — mask-to-series association
-/

/-- Reading back the position just overwritten. -/
lemma getD_set_self (l : List (List String)) (i : Nat) (x : List String)
    (h : i < l.length) : (l.set i x).getD i [] = x := by
  simp [List.getD_eq_getElem?_getD, List.getElem?_set_self, h]

/-- Reading back a position other than the overwritten one. -/
lemma getD_set_ne (l : List (List String)) (i j : Nat) (x : List String)
    (h : j ≠ i) : (l.set i x).getD j [] = l.getD j [] := by
  simp [List.getD_eq_getElem?_getD, List.getElem?_set_ne (Ne.symm h)]

/-- When every index is in range and the indices are distinct, the
sequential path insertion succeeds, preserves the length, and appends the
path at exactly the given indices. -/
lemma tryAddAll_spec (p : String) :
    ∀ (inds : List Nat) (cps : List (List String)),
      (∀ i ∈ inds, i < cps.length) → inds.Nodup →
      (tryAddAll cps inds p).2 = true
      ∧ (tryAddAll cps inds p).1.length = cps.length
      ∧ ∀ j, (tryAddAll cps inds p).1.getD j []
          = if j ∈ inds then cps.getD j [] ++ [p] else cps.getD j [] := by
  intro inds
  induction inds with
  | nil =>
    intro cps _ _
    simp [tryAddAll]
  | cons i rest ih =>
    intro cps h hnd
    have hi : i < cps.length := h i (List.mem_cons_self i rest)
    have hadd : addPathAt cps i p = some (cps.set i (cps.getD i [] ++ [p])) := by
      simp [addPathAt, hi]
    have hlen' : (cps.set i (cps.getD i [] ++ [p])).length = cps.length := by simp
    have hrest : ∀ j ∈ rest, j < (cps.set i (cps.getD i [] ++ [p])).length := by
      intro j hj
      rw [hlen']
      exact h j (List.mem_cons_of_mem i hj)
    have hnotmem : i ∉ rest := (List.nodup_cons.mp hnd).1
    have hnd' : rest.Nodup := (List.nodup_cons.mp hnd).2
    obtain ⟨hs, hl, hp⟩ := ih (cps.set i (cps.getD i [] ++ [p])) hrest hnd'
    have htry : tryAddAll cps (i :: rest) p
        = tryAddAll (cps.set i (cps.getD i [] ++ [p])) rest p := by
      simp [tryAddAll, hadd]
    refine ⟨by rw [htry]; exact hs, by rw [htry, hl, hlen'], ?_⟩
    intro j
    rw [htry, hp j]
    by_cases hji : j = i
    · subst hji
      rw [if_neg hnotmem, if_pos (List.mem_cons_self j rest)]
      exact getD_set_self cps j _ hi
    · by_cases hjr : j ∈ rest
      · rw [if_pos hjr, if_pos (List.mem_cons.mpr (Or.inr hjr))]
        rw [getD_set_ne cps i j _ hji]
      · rw [if_neg hjr, if_neg (by simp [hji, hjr])]
        exact getD_set_ne cps i j _ hji

/-- Sequential path insertion at the single one-past-the-end index fails
without touching the path table. -/
lemma tryAddAll_past_end (cps : List (List String)) (p : String) :
    tryAddAll cps [cps.length] p = (cps, false) := by
  simp [tryAddAll, addPathAt]

/-- Membership in the matching-index list of a present uid. -/
lemma mem_find_uid_cell_index (uid : String) (cell : List String)
    (hm : uid ∈ cell) (j : Nat) :
    j ∈ find_uid_cell_index uid cell ↔ j < cell.length ∧ cell.get? j = some uid := by
  unfold find_uid_cell_index
  rw [if_pos hm]
  simp [List.mem_filter, List.mem_range]

/-- The matching-index list of a present uid has distinct members. -/
lemma nodup_find_uid_cell_index (uid : String) (cell : List String)
    (hm : uid ∈ cell) : (find_uid_cell_index uid cell).Nodup := by
  unfold find_uid_cell_index
  rw [if_pos hm]
  exact (List.nodup_range _).filter _

/-- C3, counterexample: the claim asserts that a mask file whose series-UID
and frame-UID lookups both fail yields zero associations and is only
logged; on the code the frame fallback indexes one past the end of the
path table, raising an uncaught IndexError. -/
theorem rtstruct_double_failure_cex :
    associate_rt_stuct ⟨["p"], ["sX"], ["fX"], ["s1"], ["f1"], [[]]⟩
      = .error () := rfl

/-- C3, amended: association matches by series UID first and falls back to
the frame UID only when the series lookup fails; a mask file matching
several series entries is linked to all of them (fan-out preserved); but a
mask file whose series-UID and frame-UID lookups both fail raises an
uncaught IndexError that aborts the association pass, instead of yielding
zero associations and being logged. -/
theorem rtstruct_association_amended (s : DicomState) (i : Nat)
    (hlen1 : s.cell_path_rs.length = s.cell_series_id.length)
    (hlen2 : s.cell_path_rs.length = s.cell_frame_id.length) :
    (s.stack_series_rs.getD i "" ∈ s.cell_series_id →
      ∃ s', associate_one s i = .ok s'
        ∧ ∀ j < s.cell_path_rs.length,
            s'.cell_path_rs.getD j []
              = if s.cell_series_id.get? j = some (s.stack_series_rs.getD i "")
                then s.cell_path_rs.getD j [] ++ [s.stack_path_rs.getD i ""]
                else s.cell_path_rs.getD j [])
    ∧ (s.stack_series_rs.getD i "" ∉ s.cell_series_id →
        s.stack_frame_rs.getD i "" ∈ s.cell_frame_id →
      ∃ s', associate_one s i = .ok s'
        ∧ ∀ j < s.cell_path_rs.length,
            s'.cell_path_rs.getD j []
              = if s.cell_frame_id.get? j = some (s.stack_frame_rs.getD i "")
                then s.cell_path_rs.getD j [] ++ [s.stack_path_rs.getD i ""]
                else s.cell_path_rs.getD j [])
    ∧ (s.stack_series_rs.getD i "" ∉ s.cell_series_id →
        s.stack_frame_rs.getD i "" ∉ s.cell_frame_id →
        associate_one s i = .error ()) := by
  refine ⟨?_, ?_, ?_⟩
  · intro h1
    have hindslt : ∀ jj ∈ find_uid_cell_index (s.stack_series_rs.getD i "")
        s.cell_series_id, jj < s.cell_path_rs.length := by
      intro jj hjj
      rw [mem_find_uid_cell_index _ _ h1] at hjj
      rw [hlen1]
      exact hjj.1
    obtain ⟨hs, hl, hp⟩ := tryAddAll_spec (s.stack_path_rs.getD i "") _ _
      hindslt (nodup_find_uid_cell_index _ _ h1)
    refine ⟨{ s with cell_path_rs :=
      (tryAddAll s.cell_path_rs (find_uid_cell_index (s.stack_series_rs.getD i "")
        s.cell_series_id) (s.stack_path_rs.getD i "")).1 }, ?_, ?_⟩
    · unfold associate_one
      rw [if_pos hs]
    · intro j hj
      rw [hp j]
      by_cases hmem : s.cell_series_id.get? j = some (s.stack_series_rs.getD i "")
      · rw [if_pos ((mem_find_uid_cell_index _ _ h1 j).mpr ⟨hlen1 ▸ hj, hmem⟩),
          if_pos hmem]
      · rw [if_neg (fun hc => hmem ((mem_find_uid_cell_index _ _ h1 j).mp hc).2),
          if_neg hmem]
  · intro h1 h2
    have hfail1 : tryAddAll s.cell_path_rs
        (find_uid_cell_index (s.stack_series_rs.getD i "") s.cell_series_id)
        (s.stack_path_rs.getD i "") = (s.cell_path_rs, false) := by
      unfold find_uid_cell_index
      rw [if_neg h1, ← hlen1]
      exact tryAddAll_past_end _ _
    have hindslt : ∀ jj ∈ find_uid_cell_index (s.stack_frame_rs.getD i "")
        s.cell_frame_id, jj < s.cell_path_rs.length := by
      intro jj hjj
      rw [mem_find_uid_cell_index _ _ h2] at hjj
      rw [hlen2]
      exact hjj.1
    obtain ⟨hs, hl, hp⟩ := tryAddAll_spec (s.stack_path_rs.getD i "") _ _
      hindslt (nodup_find_uid_cell_index _ _ h2)
    refine ⟨{ s with cell_path_rs :=
      (tryAddAll s.cell_path_rs (find_uid_cell_index (s.stack_frame_rs.getD i "")
        s.cell_frame_id) (s.stack_path_rs.getD i "")).1 }, ?_, ?_⟩
    · unfold associate_one
      simp only [hfail1, hs, Bool.false_eq_true, if_false, eq_self_iff_true,
        if_true]
    · intro j hj
      rw [hp j]
      by_cases hmem : s.cell_frame_id.get? j = some (s.stack_frame_rs.getD i "")
      · rw [if_pos ((mem_find_uid_cell_index _ _ h2 j).mpr ⟨hlen2 ▸ hj, hmem⟩),
          if_pos hmem]
      · rw [if_neg (fun hc => hmem ((mem_find_uid_cell_index _ _ h2 j).mp hc).2),
          if_neg hmem]
  · intro h1 h2
    have hfail1 : tryAddAll s.cell_path_rs
        (find_uid_cell_index (s.stack_series_rs.getD i "") s.cell_series_id)
        (s.stack_path_rs.getD i "") = (s.cell_path_rs, false) := by
      unfold find_uid_cell_index
      rw [if_neg h1, ← hlen1]
      exact tryAddAll_past_end _ _
    have hfail2 : tryAddAll s.cell_path_rs
        (find_uid_cell_index (s.stack_frame_rs.getD i "") s.cell_frame_id)
        (s.stack_path_rs.getD i "") = (s.cell_path_rs, false) := by
      unfold find_uid_cell_index
      rw [if_neg h2, ← hlen2]
      exact tryAddAll_past_end _ _
    unfold associate_one
    simp only [hfail1, hfail2, Bool.false_eq_true, if_false]

/-- C3, witness: the amended theorem at a concrete state where the series
lookup fails and the frame UID matches two series slots, fanning the mask
path out to both. -/
theorem rtstruct_association_amended_witness :
    ∃ s', associate_one ⟨["p"], ["sX"], ["f1"], ["s1", "s2"], ["f1", "f1"],
        [[], []]⟩ 0 = .ok s'
      ∧ ∀ j < ([[], []] : List (List String)).length,
          s'.cell_path_rs.getD j []
            = if (["f1", "f1"] : List String).get? j = some "f1"
              then ([[], []] : List (List String)).getD j [] ++ ["p"]
              else ([[], []] : List (List String)).getD j [] :=
  (rtstruct_association_amended
    ⟨["p"], ["sX"], ["f1"], ["s1", "s2"], ["f1", "f1"], [[], []]⟩ 0 rfl rfl).2.1
    (by decide) (by decide)

/-!
## C10 — aliasing of the three name dicts
-/

/-- Overwriting the entry of a present key makes the lookup return the new
value. -/
lemma dlookup_map_overwrite {V : Type} (k : String) (v : V) :
    ∀ d : List (String × V), (dlookup d k).isSome →
      dlookup (d.map (fun p => if p.1 = k then (k, v) else p)) k = some v := by
  intro d
  induction d with
  | nil => simp [dlookup]
  | cons a t ih =>
    obtain ⟨ak, av⟩ := a
    by_cases hak : ak = k
    · subst hak
      intro _
      rw [List.map_cons, if_pos (show ((ak, av)).1 = ak from rfl)]
      simp [dlookup]
    · intro hs
      have hs' : (dlookup t k).isSome := by
        have ht : dlookup ((ak, av) :: t) k = dlookup t k := by
          simp only [dlookup]
          rw [if_neg hak]
        rwa [ht] at hs
      rw [List.map_cons, if_neg (show ¬ ((ak, av)).1 = k from hak)]
      simp only [dlookup]
      rw [if_neg hak]
      exact ih hs'

/-- Appending a fresh key at the end makes the lookup return its value. -/
lemma dlookup_append_new {V : Type} (k : String) (v : V) :
    ∀ d : List (String × V), dlookup d k = none →
      dlookup (d ++ [(k, v)]) k = some v := by
  intro d
  induction d with
  | nil => simp [dlookup]
  | cons a t ih =>
    obtain ⟨ak, av⟩ := a
    intro hn
    by_cases hak : ak = k
    · subst hak
      simp [dlookup] at hn
    · have hn' : dlookup t k = none := by
        have ht : dlookup ((ak, av) :: t) k = dlookup t k := by
          simp only [dlookup]
          rw [if_neg hak]
        rwa [ht] at hn
      rw [List.cons_append]
      simp only [dlookup]
      rw [if_neg hak]
      exact ih hn'

/-- Dict assignment followed by lookup of the same key yields the assigned
value. -/
lemma dlookup_dset {V : Type} (d : List (String × V)) (k : String) (v : V) :
    dlookup (dset d k v) k = some v := by
  unfold dset
  by_cases h : (dlookup d k).isSome
  · rw [if_pos h]
    exact dlookup_map_overwrite k v d h
  · rw [if_neg h]
    exact dlookup_append_new k v d (Option.not_isSome_iff_eq_none.mp h)

/-- Dict assignment never produces an empty dict. -/
lemma dset_ne_nil {V : Type} (d : List (String × V)) (k : String) (v : V) :
    dset d k v ≠ [] := by
  unfold dset
  split
  · rename_i h
    cases d with
    | nil => simp [dlookup] at h
    | cons a t => simp
  · simp

/-- A getter applied right after an assignment of the same key returns the
assigned value. -/
lemma roiGet_dset (m : List (String × String)) (k : Int) (v : String) :
    roiGet (dset m (toString k) v) (some k) = .ok (.value v) := by
  unfold roiGet
  rw [if_neg (by simp [dset_ne_nil])]
  simp [dlookup_dset]

/-- C10: constructing the ROI store with a non-empty roi-names mapping binds
roi_names, nameSet and nameSetInfo to the same dict object, so an update
through any one of the three is observed by the getters of the other two. -/
theorem roi_name_dicts_alias (ix0 : List (String × List Nat))
    (m : List (String × String)) (hm : m ≠ []) (k : Int) (v : String) :
    ((ROI_init ix0 m).roi_names_ref = (ROI_init ix0 m).nameSet_ref
      ∧ (ROI_init ix0 m).nameSet_ref = (ROI_init ix0 m).nameSetInfo_ref)
    ∧ (((ROI_init ix0 m).update_nameSet k v).get_ROIname (some k) = .ok (.value v)
      ∧ ((ROI_init ix0 m).update_nameSet k v).get_nameSetInfo (some k) = .ok (.value v))
    ∧ (((ROI_init ix0 m).update_ROIname k v).get_nameSet (some k) = .ok (.value v)
      ∧ ((ROI_init ix0 m).update_ROIname k v).get_nameSetInfo (some k) = .ok (.value v))
    ∧ (((ROI_init ix0 m).update_nameSetInfo k v).get_ROIname (some k) = .ok (.value v)
      ∧ ((ROI_init ix0 m).update_nameSetInfo k v).get_nameSet (some k) = .ok (.value v)) := by
  refine ⟨⟨?_, ?_⟩, ⟨?_, ?_⟩, ⟨?_, ?_⟩, ⟨?_, ?_⟩⟩ <;>
    simp [ROI_init, hm, ROIStore.update_nameSet, ROIStore.update_ROIname,
      ROIStore.update_nameSetInfo, ROIStore.get_ROIname, ROIStore.get_nameSet,
      ROIStore.get_nameSetInfo, ROIStore.roiNamesDict, ROIStore.nameSetDict,
      ROIStore.nameSetInfoDict, roiGet_dset]

/-- C10, witness: aliasing observed at a concrete store. -/
theorem roi_name_dicts_alias_witness :
    ((ROI_init [] [("a", "b")]).update_nameSet 3 "v").get_ROIname (some 3)
      = .ok (.value "v")
    ∧ ((ROI_init [] [("a", "b")]).update_nameSet 3 "v").get_nameSetInfo (some 3)
      = .ok (.value "v") :=
  (roi_name_dicts_alias [] [("a", "b")] (by simp) 3 "v").2.1

/-- C9, witness: the amended theorem applied at concrete states. -/
theorem accumulator_policy_amended_witness :
    (nifti_step ⟨11, false, true⟩).instances = 11 + 1
    ∧ dicom_first_accumulate ⟨11, false, true⟩ 3 = ⟨11, true, true⟩
    ∧ dicom_second_accumulate ⟨12, true, true⟩ 3 = ⟨12 + 3, true, true⟩ :=
  ⟨accumulator_policy_amended.2.1 ⟨11, false, true⟩ rfl,
   accumulator_policy_amended.2.2.2.1 ⟨11, false, true⟩ 3 (by decide) rfl,
   accumulator_policy_amended.2.2.2.2 ⟨12, true, true⟩ 3 rfl⟩

end MEDimage
